import Mathlib

/-!
Verification of the backtest engine of `backend/engine.py`,
`backend/analytics.py` and `backend/models.py`.

The Python code is shallowly embedded:

* pandas series become Lean lists; a cell that pandas would hold as `NaN`
  (rolling-window warm-up, `diff` at index 0, `shift(1)` at index 0) is an
  `Option ℚ` cell with value `none`;
* the float special values that the RSI pipeline can produce through
  division by zero (`inf`, `-inf`, `NaN`) are modelled explicitly by `PFloat`;
* code paths that can raise a `TypeError` (pandas comparison of a string
  series against a numeric series) return `Except String _`;
* Python `round(x, n)` (round-half-to-even) becomes `roundTo n` on ℚ;
* the Sharpe/Sortino ratios, whose values involve square roots, live in ℝ;
  every branch decision they make is on rational data and stays decidable.
-/

namespace Backtest

/-- Banker's rounding of a rational to the nearest integer, ties to even:
the semantics of Python `round` (modelled on exact rationals). -/
def roundHalfEvenZ (q : ℚ) : ℤ :=
  let f := ⌊q⌋
  let r := q - f
  if r < 1/2 then f
  else if 1/2 < r then f + 1
  else if f % 2 = 0 then f else f + 1

/-- Python `round(q, d)`: round half-to-even at `d` decimal places. -/
def roundTo (d : ℕ) (q : ℚ) : ℚ := (roundHalfEvenZ (q * 10 ^ d) : ℚ) / 10 ^ d

/-- `round(_, 2)` as used at the metric boundary of `analytics.py`. -/
def round2 (q : ℚ) : ℚ := roundTo 2 q

/-- `round(_, 4)` as used on trade pnl fields in `engine.py`. -/
def round4 (q : ℚ) : ℚ := roundTo 4 q

/-- Float model for the RSI pipeline: `NaN`, `±inf` and finite rationals.
`gain / loss` in `IndicatorFactory.rsi` divides by zero when the rolling
average loss is zero, so the special values are kept explicit. -/
inductive PFloat
  | nan
  | inf
  | ninf
  | num (q : ℚ)
deriving DecidableEq

/-- IEEE-style addition on the float model (NaN propagates, `inf + -inf = NaN`). -/
def PFloat.add : PFloat → PFloat → PFloat
  | .nan, _ => .nan
  | _, .nan => .nan
  | .inf, .ninf => .nan
  | .ninf, .inf => .nan
  | .inf, _ => .inf
  | _, .inf => .inf
  | .ninf, _ => .ninf
  | _, .ninf => .ninf
  | .num a, .num b => .num (a + b)

/-- IEEE-style subtraction on the float model. -/
def PFloat.sub : PFloat → PFloat → PFloat
  | .nan, _ => .nan
  | _, .nan => .nan
  | .inf, .inf => .nan
  | .ninf, .ninf => .nan
  | .inf, _ => .inf
  | _, .inf => .ninf
  | .ninf, _ => .ninf
  | _, .ninf => .inf
  | .num a, .num b => .num (a - b)

/-- IEEE-style division on the float model: `x/0` is `±inf` for `x ≠ 0`
and `NaN` for `x = 0` (numpy semantics used by the pandas series ops). -/
def PFloat.div : PFloat → PFloat → PFloat
  | .nan, _ => .nan
  | _, .nan => .nan
  | .inf, .inf => .nan
  | .inf, .ninf => .nan
  | .ninf, .inf => .nan
  | .ninf, .ninf => .nan
  | .inf, .num b => if b < 0 then .ninf else .inf
  | .ninf, .num b => if b < 0 then .inf else .ninf
  | .num _, .inf => .num 0
  | .num _, .ninf => .num 0
  | .num a, .num b =>
      if b = 0 then (if a = 0 then .nan else if 0 < a then .inf else .ninf)
      else .num (a / b)

/-- A finite float cell; `NaN` and infinities become `none`.  Used when an
indicator series is stored as a dataframe column (only `num`/`nan` values
actually occur there, see `rsiList`). -/
def PFloat.toOption : PFloat → Option ℚ
  | .num q => some q
  | _ => none

/-- One OHLCV candle (`models.Candle`); `open` is a Lean keyword, so the
field is named `opn`.  `time` is the Unix timestamp in seconds. -/
structure CandleQ where
  time : ℤ
  opn : ℚ
  high : ℚ
  low : ℚ
  close : ℚ
  volume : ℚ
deriving DecidableEq

/-- `models.TradeType`. -/
inductive TradeType
  | long
  | short
deriving DecidableEq

/-- `models.TradeStatus`. -/
inductive TradeStatus
  | win
  | loss
  | breakeven
deriving DecidableEq

/-- `models.Trade`: the immutable record emitted when a position closes. -/
structure Trade where
  entry_time : ℤ
  exit_time : ℤ
  entry_price : ℚ
  exit_price : ℚ
  pnl : ℚ
  pnl_percent : ℚ
  type : TradeType
  status : TradeStatus
deriving DecidableEq

/-- `models.BacktestRequest` (validation bounds such as `sma_fast ≥ 2`,
`sma_slow ≥ 10` are pydantic concerns and are not baked into the type). -/
structure BacktestRequest where
  symbol : String := "BTC/USDT"
  timeframe : String := "1h"
  limit : ℕ := 500
  initial_capital : ℚ := 10000
  strategy : String := "sma_crossover"
  sma_fast : ℕ := 10
  sma_slow : ℕ := 30
deriving DecidableEq

/-- `models.EquityPoint`. -/
structure EquityPoint where
  time : ℤ
  equity : ℚ
deriving DecidableEq

/-- `models.DrawdownPoint`. -/
structure DrawdownPoint where
  time : ℤ
  drawdown_pct : ℚ
deriving DecidableEq

/-! ## IndicatorFactory (`engine.py` lines 30-105)

Indicator inputs are the raw close-price list; a rolling window that has
not filled yet yields `none` (pandas `NaN`). -/

/-- `Series.rolling(window=p).mean()`: `none` during warm-up, else the
arithmetic mean of the trailing `p` values. -/
def rollingMean (p : ℕ) (xs : List ℚ) : List (Option ℚ) :=
  (List.range xs.length).map (fun i =>
    if i + 1 < p then none
    else some ((((xs.take (i + 1)).drop (i + 1 - p)).sum) / p))

/-- `IndicatorFactory.sma` on the close column. -/
def smaList (p : ℕ) (xs : List ℚ) : List (Option ℚ) := rollingMean p xs

/-- Recursive EMA step: `y_i = α x_i + (1-α) y_{i-1}`. -/
def emaGo (a : ℚ) : ℚ → List ℚ → List ℚ
  | _, [] => []
  | prev, x :: rest =>
      let cur := a * x + (1 - a) * prev
      cur :: emaGo a cur rest

/-- `IndicatorFactory.ema`: `ewm(span=p, adjust=False).mean()`, seeded with
the first value, smoothing factor `2/(p+1)`.  No warm-up NaN. -/
def emaList (p : ℕ) (xs : List ℚ) : List ℚ :=
  match xs with
  | [] => []
  | x :: rest => x :: emaGo (2 / (p + 1)) x rest

/-- `IndicatorFactory.macd`: (macd line, signal line, histogram). -/
def macdTriple (xs : List ℚ) (fast slow sig : ℕ) :
    List ℚ × List ℚ × List ℚ :=
  let emaFast := emaList fast xs
  let emaSlow := emaList slow xs
  let macdLine := List.zipWith (fun a b => a - b) emaFast emaSlow
  let signalLine := emaList sig macdLine
  let histogram := List.zipWith (fun a b => a - b) macdLine signalLine
  (macdLine, signalLine, histogram)

/-- `df[column].diff()`: `none` at index 0, else the difference of
consecutive values. -/
def deltaList (xs : List ℚ) : List (Option ℚ) :=
  match xs with
  | [] => []
  | _ :: t => none :: List.zipWith (fun prev cur => some (cur - prev)) xs t

/-- `delta.where(delta > 0, 0)`: the positive deltas; the index-0 NaN fails
the `> 0` test and is replaced by `0`, like every non-positive delta. -/
def gainList (xs : List ℚ) : List ℚ :=
  (deltaList xs).map (fun d =>
    match d with
    | some v => if 0 < v then v else 0
    | none => 0)

/-- `-delta.where(delta < 0, 0)`: magnitudes of the negative deltas. -/
def lossList (xs : List ℚ) : List ℚ :=
  (deltaList xs).map (fun d =>
    match d with
    | some v => if v < 0 then -v else 0
    | none => 0)

/-- Trailing-window average gain of `IndicatorFactory.rsi`. -/
def rsiAvgGain (p : ℕ) (xs : List ℚ) : List (Option ℚ) :=
  rollingMean p (gainList xs)

/-- Trailing-window average loss of `IndicatorFactory.rsi`. -/
def rsiAvgLoss (p : ℕ) (xs : List ℚ) : List (Option ℚ) :=
  rollingMean p (lossList xs)

/-- A warm-up `none` cell enters float arithmetic as NaN. -/
def pOf : Option ℚ → PFloat
  | some q => .num q
  | none => .nan

/-- `IndicatorFactory.rsi`: `rs = gain/loss`, `rsi = 100 - 100/(1+rs)`,
computed in float semantics.  With a zero average loss, `rs` is `inf`
(positive gain) or `NaN` (flat window, `0/0`), hence the `PFloat` values. -/
def rsiList (xs : List ℚ) (p : ℕ) : List PFloat :=
  List.zipWith (fun g l =>
      let rs := PFloat.div (pOf g) (pOf l)
      PFloat.sub (.num 100) (PFloat.div (.num 100) (PFloat.add (.num 1) rs)))
    (rsiAvgGain p xs) (rsiAvgLoss p xs)

/-- Rolling sample variance (`ddof=1`, pandas `rolling(p).std()` squared):
`none` during warm-up and for windows of size ≤ 1. -/
def rollingSampleVar (p : ℕ) (xs : List ℚ) : List (Option ℚ) :=
  (List.range xs.length).map (fun i =>
    if i + 1 < p ∨ p ≤ 1 then none
    else
      let w := (xs.take (i + 1)).drop (i + 1 - p)
      let m := w.sum / p
      some ((w.map (fun x => (x - m) ^ 2)).sum / ((p : ℚ) - 1)))

/-- `IndicatorFactory.bollinger`: (upper, middle, lower); the bands need a
square root and land in ℝ. -/
noncomputable def bollingerTriple (p : ℕ) (sd : ℚ) (xs : List ℚ) :
    List (Option ℝ) × List (Option ℝ) × List (Option ℝ) :=
  let mid := smaList p xs
  let var := rollingSampleVar p xs
  let band : Bool → List (Option ℝ) := fun upper =>
    List.zipWith (fun m v =>
      match m, v with
      | some m, some v =>
          some (if upper then (m : ℝ) + Real.sqrt (v : ℝ) * (sd : ℝ)
                else (m : ℝ) - Real.sqrt (v : ℝ) * (sd : ℝ))
      | _, _ => none) mid var
  (band true, mid.map (fun m => m.map (fun q => (q : ℝ))), band false)

/-! ## SignalEvaluator (`engine.py` lines 112-182)

A condition operand is a string (column reference) or a number.  The
working dataframe keeps the original candles as `rows` plus the indicator
columns added by the engine (`cols`, insertion order preserved; assigning
an existing name overwrites it, as pandas does). -/

/-- A JSON condition operand: column-name string or numeric literal. -/
inductive Operand
  | str (s : String)
  | num (q : ℚ)
deriving DecidableEq

/-- A condition dict (`{'left': .., 'operator': .., 'right': ..}`), with
the defaults applied by `evaluate_condition`'s `.get` calls. -/
structure Condition where
  left : Operand := Operand.str "close"
  op : String := ">"
  right : Operand := Operand.num 0
deriving DecidableEq

/-- The working dataframe: base candle columns plus added indicator
columns (each aligned index-for-index with `rows`). -/
structure DF where
  rows : List CandleQ
  cols : List (String × List (Option ℚ))
deriving DecidableEq

/-- Number of rows. -/
def DF.length (df : DF) : ℕ := df.rows.length

/-- The close column as plain rationals. -/
def DF.closes (df : DF) : List ℚ := df.rows.map (fun c => c.close)

/-- Lookup among the added indicator columns. -/
def DF.findCol (df : DF) (n : String) : Option (List (Option ℚ)) :=
  (df.cols.find? (fun c => c.1 = n)).map Prod.snd

/-- The base OHLCV columns (after `set_index('time_dt')` the original
`time` column is still present). -/
def DF.baseCol (df : DF) (n : String) : Option (List (Option ℚ)) :=
  if n = "time" then some (df.rows.map (fun c => some (c.time : ℚ)))
  else if n = "open" then some (df.rows.map (fun c => some c.opn))
  else if n = "high" then some (df.rows.map (fun c => some c.high))
  else if n = "low" then some (df.rows.map (fun c => some c.low))
  else if n = "close" then some (df.rows.map (fun c => some c.close))
  else if n = "volume" then some (df.rows.map (fun c => some c.volume))
  else none

/-- `name in df.columns`. -/
def DF.hasCol (df : DF) (n : String) : Bool :=
  (df.findCol n).isSome || (df.baseCol n).isSome

/-- `df[name]` for a name known to be a column (added columns shadow base
ones; the engine never creates such a clash). -/
def DF.getCol (df : DF) (n : String) : List (Option ℚ) :=
  match df.findCol n with
  | some xs => xs
  | none => (df.baseCol n).getD []

/-- `df[name] = series`: overwrite an existing column or append a new one. -/
def DF.addCol (df : DF) (n : String) (xs : List (Option ℚ)) : DF :=
  if df.cols.any (fun c => c.1 = n) then
    { df with cols := df.cols.map (fun c => if c.1 = n then (n, xs) else c) }
  else
    { df with cols := df.cols ++ [(n, xs)] }

/-- `df.dropna()` mask: keep row `i` iff no added column is NaN there
(base columns are never NaN; boolean signal columns contain no NaN). -/
def DF.keepMask (df : DF) : List Bool :=
  (List.range df.length).map (fun i =>
    df.cols.all (fun c =>
      match c.2.get? i with
      | some (some _) => true
      | _ => false))

/-- Elementwise `>` on NaN-aware cells: any NaN compares false. -/
def optGt : Option ℚ → Option ℚ → Bool
  | some a, some b => decide (b < a)
  | _, _ => false

/-- Elementwise `<`. -/
def optLt : Option ℚ → Option ℚ → Bool
  | some a, some b => decide (a < b)
  | _, _ => false

/-- Elementwise `>=`. -/
def optGe : Option ℚ → Option ℚ → Bool
  | some a, some b => decide (b ≤ a)
  | _, _ => false

/-- Elementwise `<=`. -/
def optLe : Option ℚ → Option ℚ → Bool
  | some a, some b => decide (a ≤ b)
  | _, _ => false

/-- Elementwise `==` (`NaN == NaN` is false). -/
def optEq : Option ℚ → Option ℚ → Bool
  | some a, some b => decide (a = b)
  | _, _ => false

/-- Cell access: out-of-range behaves as NaN (never reached on the
equal-length series the engine builds). -/
def cellAt (a : List (Option ℚ)) (i : ℕ) : Option ℚ :=
  (a.get? i).getD none

/-- `series.shift(1)` cell: NaN at index 0. -/
def shiftCell (a : List (Option ℚ)) (i : ℕ) : Option ℚ :=
  if i = 0 then none else cellAt a (i - 1)

/-- The `crosses_above` comparator:
`(a.shift(1) <= b.shift(1)) & (a > b)`, false at index 0 because the
shifted NaN fails `<=`. -/
def crossesAboveL (a b : List (Option ℚ)) : List Bool :=
  (List.range (min a.length b.length)).map (fun i =>
    optLe (shiftCell a i) (shiftCell b i) && optGt (cellAt a i) (cellAt b i))

/-- The `crosses_below` comparator:
`(a.shift(1) >= b.shift(1)) & (a < b)`. -/
def crossesBelowL (a b : List (Option ℚ)) : List Bool :=
  (List.range (min a.length b.length)).map (fun i =>
    optGe (shiftCell a i) (shiftCell b i) && optLt (cellAt a i) (cellAt b i))

/-- `SignalEvaluator.COMPARATORS` on two numeric series; an unknown
operator falls back to `a > b` (the `.get` default). -/
def numCmp (op : String) (a b : List (Option ℚ)) : List Bool :=
  if op = ">" then List.zipWith optGt a b
  else if op = "<" then List.zipWith optLt a b
  else if op = ">=" then List.zipWith optGe a b
  else if op = "<=" then List.zipWith optLe a b
  else if op = "==" then List.zipWith optEq a b
  else if op = "crosses_above" then crossesAboveL a b
  else if op = "crosses_below" then crossesBelowL a b
  else List.zipWith optGt a b

/-- Python code-point comparison of strings. -/
def strLtList : List Char → List Char → Bool
  | [], [] => false
  | [], _ :: _ => true
  | _ :: _, [] => false
  | a :: as, b :: bs =>
      if a < b then true else if b < a then false else strLtList as bs

/-- `s < t` for Python strings. -/
def strLtB (s t : String) : Bool := strLtList s.toList t.toList

/-- `SignalEvaluator.COMPARATORS` on two broadcast string literals (both
operands constant, so every elementwise comparison yields the same value;
a shifted crossing conjunction is constantly false). -/
def strCmp (op : String) (s t : String) (n : ℕ) : List Bool :=
  if op = ">" then List.replicate n (strLtB t s)
  else if op = "<" then List.replicate n (strLtB s t)
  else if op = ">=" then List.replicate n (!strLtB s t)
  else if op = "<=" then List.replicate n (!strLtB t s)
  else if op = "==" then List.replicate n (decide (s = t))
  else if op = "crosses_above" then
    (List.range n).map (fun i => decide (i ≠ 0) && !strLtB t s && strLtB t s)
  else if op = "crosses_below" then
    (List.range n).map (fun i => decide (i ≠ 0) && !strLtB s t && strLtB s t)
  else List.replicate n (strLtB t s)

/-- The pandas `TypeError` raised when an order comparator meets a string
series and a numeric series. -/
def typeErrMsg : String := "TypeError"

/-- A resolved condition operand: a numeric series, or a string literal
broadcast over the frame length. -/
inductive RSeries
  | nums (xs : List (Option ℚ))
  | strs (s : String) (n : ℕ)
deriving DecidableEq

/-- Operand resolution of `evaluate_condition`: a string naming a known
column resolves to that column, anything else is broadcast as a literal. -/
def resolveOperand (df : DF) : Operand → RSeries
  | .num q => .nums (List.replicate df.length (some q))
  | .str s => if df.hasCol s then .nums (df.getCol s) else .strs s df.length

/-- Comparator application.  Two numeric series always compare; two string
literals compare by Python string order; `==` across types is elementwise
false; any other operator across a string and a numeric series raises
`TypeError` on a non-empty frame. -/
def applyComparator (op : String) : RSeries → RSeries → Except String (List Bool)
  | .nums a, .nums b => .ok (numCmp op a b)
  | .strs s m, .strs t n => .ok (strCmp op s t (min m n))
  | .nums a, .strs _ n =>
      if op = "==" then .ok (List.replicate (min a.length n) false)
      else if min a.length n = 0 then .ok []
      else .error typeErrMsg
  | .strs _ m, .nums b =>
      if op = "==" then .ok (List.replicate (min m b.length) false)
      else if min m b.length = 0 then .ok []
      else .error typeErrMsg

/-- `SignalEvaluator.evaluate_condition`. -/
def evaluate_condition (df : DF) (c : Condition) : Except String (List Bool) :=
  applyComparator c.op (resolveOperand df c.left) (resolveOperand df c.right)

/-- AND-fold of `evaluate_rules`, threading the possible `TypeError`. -/
def evalRulesGo (df : DF) : List Condition → List Bool → Except String (List Bool)
  | [], acc => .ok acc
  | c :: cs, acc =>
      match evaluate_condition df c with
      | .error e => .error e
      | .ok bs => evalRulesGo df cs (List.zipWith and acc bs)

/-- `SignalEvaluator.evaluate_rules`: all-false on an empty rule list,
otherwise the conjunction of all conditions. -/
def evaluate_rules (df : DF) (rules : List Condition) : Except String (List Bool) :=
  if rules = [] then .ok (List.replicate df.length false)
  else evalRulesGo df rules (List.replicate df.length true)

/-! ## Declarative strategy specification (`ChaosBridge` JSON)

Dictionary fields are modelled with the defaults that the engine's `.get`
calls supply; a field whose *presence* matters (`'indicators' in
strategy_logic`, `threshold`, `stop_loss_pct`) is an `Option`. -/

/-- One entry of `strategy_logic['indicators']`; `params` for MACD is
flattened into `fast`/`slow`/`signal` with the engine's defaults. -/
structure IndicatorSpec where
  name : String := "SMA"
  period : ℕ := 20
  fast : ℕ := 12
  slow : ℕ := 26
  signal : ℕ := 9
deriving DecidableEq

/-- One entry of `strategy_logic['entry_rules']`. -/
structure EntryRule where
  indicator : String := ""
  threshold : Option Operand := none
  condition : String := ""
deriving DecidableEq

/-- One entry of `strategy_logic['exit_rules']`; the `condition` payload is
carried to show it is never consulted. -/
structure ExitRule where
  condition : String := ""
  stop_loss_pct : Option ℚ := none
  take_profit_pct : Option ℚ := none
deriving DecidableEq

/-- `strategy_logic`: `indicators = none` models a dict without the
`'indicators'` key (which routes `run` to the legacy SMA strategy). -/
structure StrategyLogic where
  indicators : Option (List IndicatorSpec) := none
  entry_rules : List EntryRule := []
  exit_rules : List ExitRule := []
deriving DecidableEq

/-- Python truthiness of a threshold value (`None`, `0` and `''` falsy). -/
def truthyOp : Option Operand → Bool
  | none => false
  | some (.num q) => decide (q ≠ 0)
  | some (.str s) => decide (s ≠ "")

/-- `str.upper()` on code points (the library `String.map` does not
reduce definitionally; the engine's indicator names are plain ASCII). -/
def strUpper (s : String) : String := String.mk (s.toList.map Char.toUpper)

/-- `str.lower()` on code points. -/
def strLower (s : String) : String := String.mk (s.toList.map Char.toLower)

/-- Character-list prefix test. -/
def startsWithB : List Char → List Char → Bool
  | [], _ => true
  | _ :: _, [] => false
  | a :: as, b :: bs => a = b && startsWithB as bs

/-- Character-list substring test. -/
def containsSubB : List Char → List Char → Bool
  | n, [] => n.isEmpty
  | n, h :: hs => startsWithB n (h :: hs) || containsSubB n hs

/-- Python `needle in hay` on strings. -/
def strContains (hay needle : String) : Bool :=
  containsSubB needle.toList hay.toList

/-- Step 1 of `_execute_dynamic_strategy`: compute one requested indicator
column (`rsi_p` / `ema_p` / `sma_p`, or the three MACD columns); an
unrecognized name is silently skipped.  A zero `period` is falsy in the
f-string guard, so the column name then has no suffix. -/
def addIndicator (df : DF) (ind : IndicatorSpec) : DF :=
  let nUp := strUpper ind.name
  let nLo := strLower ind.name
  let colName := if ind.period ≠ 0 then nLo ++ "_" ++ toString ind.period else nLo
  if nUp = "RSI" then
    df.addCol colName ((rsiList df.closes ind.period).map PFloat.toOption)
  else if nUp = "EMA" then
    df.addCol colName ((emaList ind.period df.closes).map some)
  else if nUp = "SMA" then
    df.addCol colName (smaList ind.period df.closes)
  else if nUp = "MACD" then
    let t := macdTriple df.closes ind.fast ind.slow ind.signal
    ((df.addCol "macd" (t.1.map some)).addCol "macd_signal"
      (t.2.1.map some)).addCol "macd_hist" (t.2.2.map some)
  else df

/-- Step 2 of `_execute_dynamic_strategy`: translate the entry rules into
evaluable conditions.  An RSI rule targets the hard-coded `rsi_14` column;
a crossover rule makes sure the `sma_{fast}`/`sma_{slow}` columns exist
(adding them to the frame) and compares them with `crosses_above`. -/
def buildEntryConditions (req : BacktestRequest) : DF → List EntryRule → DF × List Condition
  | df, [] => (df, [])
  | df, r :: rs =>
      let ind := strLower r.indicator
      if strContains ind "rsi" && truthyOp r.threshold then
        let c : Condition :=
          { left := Operand.str "rsi_14",
            op := if strContains (strLower r.condition) "oversold" then "<" else ">",
            right := r.threshold.getD (Operand.num 0) }
        let res := buildEntryConditions req df rs
        (res.1, c :: res.2)
      else if strContains ind "crossover" || strContains (strLower r.condition) "cross" then
        let fastName := "sma_" ++ toString req.sma_fast
        let slowName := "sma_" ++ toString req.sma_slow
        let df1 := if df.hasCol fastName then df
                   else df.addCol fastName (smaList req.sma_fast df.closes)
        let df2 := if df1.hasCol slowName then df1
                   else df1.addCol slowName (smaList req.sma_slow df1.closes)
        let c : Condition :=
          { left := Operand.str fastName, op := "crosses_above",
            right := Operand.str slowName }
        let res := buildEntryConditions req df2 rs
        (res.1, c :: res.2)
      else buildEntryConditions req df rs

/-- The fallback entry condition shared by both fallback branches. -/
def fallbackCondition : Condition :=
  { left := Operand.str "sma_fast", op := "crosses_above",
    right := Operand.str "sma_slow" }

/-- Add the `sma_fast`/`sma_slow` fallback columns. -/
def addFallbackCols (df : DF) (req : BacktestRequest) : DF :=
  (df.addCol "sma_fast" (smaList req.sma_fast df.closes)).addCol
    "sma_slow" (smaList req.sma_slow df.closes)

/-- Entry-signal generation of `_execute_dynamic_strategy`: translate the
rules if any; with no rules, or no usable conditions, fall back to the
`sma_fast`/`sma_slow` crossover.  Returns the frame (with whatever columns
were added along the way) and the possibly-failing boolean signal. -/
def entrySignalStep (df : DF) (req : BacktestRequest) (l : StrategyLogic) :
    DF × Except String (List Bool) :=
  if l.entry_rules = [] then
    let df1 := addFallbackCols df req
    (df1, evaluate_condition df1 fallbackCondition)
  else
    let built := buildEntryConditions req df l.entry_rules
    if built.2 = [] then
      let df1 := addFallbackCols built.1 req
      (df1, evaluate_condition df1 fallbackCondition)
    else (built.1, evaluate_rules built.1 built.2)

/-- Step 3 of `_execute_dynamic_strategy`:
`exit_signal = entry_signal.shift(1) & ~entry_signal` (the shifted NaN at
index 0 conjoins to false). -/
def exitFromEntry (es : List Bool) : List Bool :=
  match es with
  | [] => []
  | _ :: t => false :: List.zipWith (fun prev cur => prev && !cur) es t

/-- Stop-loss extraction from `exit_rules`: the last rule with a truthy
`stop_loss_pct` wins, divided by 100. -/
def extractStopLoss (rules : List ExitRule) : Option ℚ :=
  rules.foldl (fun acc r =>
    match r.stop_loss_pct with
    | some v => if v ≠ 0 then some (v / 100) else acc
    | none => acc) none

/-! ## The simulation loop (`engine.py` lines 363-414 and 434-468)

Both strategy pathways walk the kept rows once with at most one open
position; they differ only in how the entry/exit flags were computed, so
they share `dynLoop`. -/

/-- Transient position state. -/
structure Position where
  entry_time : ℤ
  entry_price : ℚ
  stop_loss : Option ℚ
deriving DecidableEq

/-- One kept dataframe row with its precomputed entry/exit flags. -/
structure ExecRow where
  time : ℤ
  close : ℚ
  low : ℚ
  entry : Bool
  exitS : Bool
deriving DecidableEq

/-- Opening a position: the stop-loss price is set only for a truthy
`stop_loss_pct`. -/
def openPos (r : ExecRow) (slp : Option ℚ) : Position :=
  { entry_time := r.time, entry_price := r.close,
    stop_loss :=
      match slp with
      | some s => if s ≠ 0 then some (r.close * (1 - s)) else none
      | none => none }

/-- Stop-loss trigger: `position['stop_loss'] and low <= stop_loss`
(Python truthiness: a stop-loss price of exactly 0 never triggers). -/
def stopHit (p : Position) (r : ExecRow) : Bool :=
  match p.stop_loss with
  | none => false
  | some sl => decide (sl ≠ 0) && decide (r.low ≤ sl)

/-- Closing a position at row `r`: exit at the stop price on a stop-loss
exit, else at the close.  The outcome is classified on the exact pnl;
the stored `pnl`/`pnl_percent` fields are rounded to 4 decimals. -/
def mkTrade (p : Position) (r : ExecRow) (hit : Bool) : Trade :=
  let exitPrice := if hit then p.stop_loss.getD 0 else r.close
  let pnl := exitPrice - p.entry_price
  { entry_time := p.entry_time, exit_time := r.time,
    entry_price := p.entry_price, exit_price := exitPrice,
    pnl := round4 pnl,
    pnl_percent := round4 (pnl / p.entry_price * 100),
    type := TradeType.long,
    status := if 0 < pnl then TradeStatus.win
              else if pnl < 0 then TradeStatus.loss
              else TradeStatus.breakeven }

/-- The row walk: open on an entry flag only when flat (an entry signal
while a position is open is ignored); when open, exit on stop-loss first,
else on the exit flag. -/
def dynLoop (slp : Option ℚ) : List ExecRow → Option Position → List Trade
  | [], _ => []
  | r :: rs, none =>
      if r.entry then dynLoop slp rs (some (openPos r slp))
      else dynLoop slp rs none
  | r :: rs, some p =>
      if stopHit p r || r.exitS then mkTrade p r (stopHit p r) :: dynLoop slp rs none
      else dynLoop slp rs (some p)

/-- Align candles with their entry/exit flags and the `dropna` keep mask
(a missing flag reads as `False`, a missing mask bit drops the row). -/
def mkRows : List CandleQ → List Bool → List Bool → List Bool → List ExecRow
  | [], _, _, _ => []
  | c :: cs, es, xs, ks =>
      let rest := mkRows cs es.tail xs.tail ks.tail
      if ks.headD false then
        { time := c.time, close := c.close, low := c.low,
          entry := es.headD false, exitS := xs.headD false } :: rest
      else rest

/-- `Backtester._execute_dynamic_strategy`: indicators, entry signal
(which may raise), exit signal, stop-loss, `dropna`, then the row walk. -/
def execDynamic (df0 : DF) (req : BacktestRequest) (l : StrategyLogic) :
    Except String (List Trade) :=
  let df1 := (l.indicators.getD []).foldl addIndicator df0
  let built := entrySignalStep df1 req l
  match built.2 with
  | .error e => .error e
  | .ok es =>
      let xs := exitFromEntry es
      let slp := extractStopLoss l.exit_rules
      let rows := mkRows built.1.rows es xs built.1.keepMask
      .ok (dynLoop slp rows none)

/-- `series.diff()` on the integer signal column: NaN at index 0. -/
def diffList (xs : List ℤ) : List (Option ℤ) :=
  match xs with
  | [] => []
  | _ :: t => none :: List.zipWith (fun prev cur => some (cur - prev)) xs t

/-- `Backtester._strategy_sma_crossover` (the legacy fallback): signal is
`+1`/`-1` by SMA comparison (0 where either SMA is NaN), crossover is its
diff, entry on `+2`, exit on `-2`, after dropping NaN rows. -/
def smaCrossoverTrades (data : List CandleQ) (req : BacktestRequest) : List Trade :=
  let closes := data.map (fun c => c.close)
  let f := smaList req.sma_fast closes
  let s := smaList req.sma_slow closes
  let signal : List ℤ := List.zipWith (fun a b =>
      match a, b with
      | some a, some b => if b < a then 1 else if a < b then -1 else 0
      | _, _ => 0) f s
  let crossover := diffList signal
  let keep := (List.range data.length).map (fun i =>
      (cellAt f i).isSome && (cellAt s i).isSome &&
        ((crossover.get? i).getD none).isSome)
  let entry := crossover.map (fun o => decide (o = some 2))
  let exitF := crossover.map (fun o => decide (o = some (-2)))
  dynLoop none (mkRows data entry exitF keep) none

/-- Strategy dispatch of `Backtester.run`: the dynamic executor runs only
when a strategy spec is supplied *and* carries an `'indicators'` key. -/
def tradesPhase (data : List CandleQ) (req : BacktestRequest)
    (logic : Option StrategyLogic) : Except String (List Trade) :=
  match logic with
  | some l =>
      if l.indicators.isSome then execDynamic { rows := data, cols := [] } req l
      else .ok (smaCrossoverTrades data req)
  | none => .ok (smaCrossoverTrades data req)

/-! ## PerformanceAnalyzer (`analytics.py`)

Equity/drawdown/trade statistics are exact rationals; the Sharpe and
Sortino ratios involve square roots and live in ℝ (their branch decisions
are taken on rational data). -/

/-- One row of the equity-curve frame (`time`, `equity`, `returns`). -/
structure EquityRow where
  time : ℤ
  equity : ℚ
  ret : ℚ
deriving DecidableEq

/-- Equity accumulation: per candle, add the pnl of every trade exiting at
that candle's timestamp, cumulate, and compute `pct_change` returns
(`fillna(0)` makes the first return 0; a division by a zero previous
equity cannot yield a rational and is modelled as 0 — no claim and no
reachable metric branch depends on that corner). -/
def equityRowsGo (initial : ℚ) (trades : List Trade) :
    List CandleQ → ℚ → Option ℚ → List EquityRow
  | [], _, _ => []
  | c :: cs, cum, prev =>
      let pnl := (trades.filter (fun t => t.exit_time = c.time)).foldl
        (fun a t => a + t.pnl) 0
      let cum2 := cum + pnl
      let e := initial + cum2
      let ret := match prev with
        | none => 0
        | some pe => if pe = 0 then 0 else (e - pe) / pe
      { time := c.time, equity := e, ret := ret } ::
        equityRowsGo initial trades cs cum2 (some e)

/-- `PerformanceAnalyzer.calculate_equity_curve`: flat at the initial
capital without trades, else realized pnl mapped onto exit candles and
cumulated. -/
def calculate_equity_curve (initial : ℚ) (trades : List Trade)
    (candles : List CandleQ) : List EquityRow :=
  if trades = [] then
    candles.map (fun c => { time := c.time, equity := initial, ret := 0 })
  else equityRowsGo initial trades candles 0 none

/-- Running maximum continuing from `m`. -/
def runningMaxFrom (m : ℚ) : List ℚ → List ℚ
  | [] => []
  | x :: xs => max m x :: runningMaxFrom (max m x) xs

/-- `equity.cummax()`. -/
def runningMax : List ℚ → List ℚ
  | [] => []
  | x :: xs => x :: runningMaxFrom x xs

/-- `drawdown_pct = drawdown / running_max * 100` followed by
`replace([inf, -inf], 0).fillna(0)`: on finite input the only non-finite
cells come from a zero running maximum, so the composite is exactly
"0 where the running max is 0, else the exact ratio". -/
def drawdownPctList (equity : List ℚ) : List ℚ :=
  (equity.zip (runningMax equity)).map (fun p =>
    if p.2 = 0 then 0 else (p.1 - p.2) / p.2 * 100)

/-- One row of the drawdown frame. -/
structure DrawdownRow where
  time : ℤ
  drawdown : ℚ
  drawdown_pct : ℚ
deriving DecidableEq

/-- `PerformanceAnalyzer.calculate_drawdown_series`. -/
def calculate_drawdown_series (rows : List EquityRow) : List DrawdownRow :=
  let eq := rows.map (fun r => r.equity)
  let dd := List.zipWith (fun e m => e - m) eq (runningMax eq)
  let pct := drawdownPctList eq
  (rows.zip (dd.zip pct)).map (fun x =>
    { time := x.1.time, drawdown := x.2.1, drawdown_pct := x.2.2 })

/-- Minimum of a rational list (0 on the empty list, which `analytics`
only reaches with an empty candle set that `run` has already filtered). -/
def listMin : List ℚ → ℚ
  | [] => 0
  | x :: xs => xs.foldl min x

/-- `PerformanceAnalyzer.calculate_max_drawdown`. -/
def calculate_max_drawdown (equity : List ℚ) : ℚ × ℚ :=
  (listMin (List.zipWith (fun e m => e - m) equity (runningMax equity)),
   listMin (drawdownPctList equity))

/-- Sample variance (`ddof=1`, what `Series.std()` squares to); `none`
models the NaN std of a series of fewer than two points. -/
def sampleVarQ (xs : List ℚ) : Option ℚ :=
  if xs.length ≤ 1 then none
  else
    let m := xs.sum / xs.length
    some (((xs.map (fun x => (x - m) ^ 2)).sum) / ((xs.length : ℚ) - 1))

/-- `PerformanceAnalyzer.calculate_sharpe_ratio`: 0 on an empty series or
zero/NaN standard deviation, else the annualized ratio (`sqrt 365`).  The
final `nan_to_num` is the identity on these finite values. -/
noncomputable def calculate_sharpe_ratio (returns : List ℚ) (rf : ℚ) : ℝ :=
  if returns = [] ∨ sampleVarQ returns = some 0 then 0
  else
    let dailyRf := rf / 365
    let excess := returns.map (fun r => r - dailyRf)
    match sampleVarQ excess with
    | none => 0
    | some v =>
        if v = 0 then 0
        else (((excess.sum / excess.length : ℚ) : ℝ) / Real.sqrt (v : ℝ))
          * Real.sqrt 365

/-- `PerformanceAnalyzer.calculate_sortino_ratio`: 0 on an empty series;
with no negative excess returns, the capped sentinel 10.0 for a positive
mean excess return and 0 otherwise; else the annualized downside ratio.
The downside deviation of a non-empty all-negative list is positive, so
the `== 0 or isnan` guard is kept as the equivalent rational test. -/
noncomputable def calculate_sortino_ratio (returns : List ℚ) (rf : ℚ) : ℝ :=
  if returns = [] then 0
  else
    let dailyRf := rf / 365
    let excess := returns.map (fun r => r - dailyRf)
    let downside := excess.filter (fun r => r < 0)
    if downside = [] then
      if 0 < excess.sum / (excess.length : ℚ) then 10 else 0
    else
      let dvar : ℚ := ((downside.map (fun r => r ^ 2)).sum) / downside.length
      if dvar = 0 then 0
      else (((excess.sum / excess.length : ℚ) : ℝ) / Real.sqrt (dvar : ℝ))
        * Real.sqrt 365

/-- `PerformanceAnalyzer.calculate_profit_factor`. -/
def calculate_profit_factor (trades : List Trade) : ℚ :=
  if trades = [] then 0
  else
    let pnls := trades.map (fun t => t.pnl)
    let grossProfit := (pnls.filter (fun x => 0 < x)).sum
    let grossLoss := (pnls.filter (fun x => x < 0)).sum
    if grossLoss = 0 then (if 0 < grossProfit then grossProfit else 0)
    else |grossProfit / grossLoss|

/-- `PerformanceAnalyzer.calculate_win_rate`. -/
def calculate_win_rate (trades : List Trade) : ℚ :=
  if trades = [] then 0
  else ((trades.filter (fun t => 0 < t.pnl)).length : ℚ) / trades.length * 100

/-- Banker's rounding on ℝ (Python `round` applied to the float-valued
Sharpe/Sortino ratios). -/
noncomputable def roundHalfEvenZR (x : ℝ) : ℤ :=
  let f := ⌊x⌋
  if x - f < 1/2 then f
  else if (1:ℝ)/2 < x - f then f + 1
  else if f % 2 = 0 then f else f + 1

/-- `round(x, 4)` on ℝ. -/
noncomputable def roundTo4R (x : ℝ) : ℝ := (roundHalfEvenZR (x * 10 ^ 4) : ℝ) / 10 ^ 4

/-- `models.PerformanceMetrics` (ratio fields real-valued, the rest
exact). -/
structure PerformanceMetrics where
  sharpe_ratio : ℝ
  sortino_ratio : ℝ
  max_drawdown : ℚ
  max_drawdown_pct : ℚ
  win_rate : ℚ
  profit_factor : ℚ
  total_return : ℚ
  total_return_pct : ℚ
  total_trades : ℕ
  winning_trades : ℕ
  losing_trades : ℕ
  gross_profit : ℚ
  gross_loss : ℚ
  avg_win : ℚ
  avg_loss : ℚ
  final_equity : ℚ

/-- Output bundle of `calculate_all_metrics`. -/
structure AnalyticsRes where
  metrics : PerformanceMetrics
  equity_curve : List EquityPoint
  drawdown_series : List DrawdownPoint

/-- `PerformanceAnalyzer.calculate_all_metrics` (risk-free rate defaults
to 0; every monetary output rounded to 2 decimals, ratios to 4). -/
noncomputable def calculate_all_metrics (initial : ℚ) (trades : List Trade)
    (candles : List CandleQ) : AnalyticsRes :=
  let eq := calculate_equity_curve initial trades candles
  let returns := eq.map (fun r => r.ret)
  let ddSeries := calculate_drawdown_series eq
  let mdd := calculate_max_drawdown (eq.map (fun r => r.equity))
  let pnls := trades.map (fun t => t.pnl)
  let pos := pnls.filter (fun x => 0 < x)
  let neg := pnls.filter (fun x => x < 0)
  { metrics :=
    { sharpe_ratio := roundTo4R (calculate_sharpe_ratio returns 0),
      sortino_ratio := roundTo4R (calculate_sortino_ratio returns 0),
      max_drawdown := round2 mdd.1,
      max_drawdown_pct := round2 mdd.2,
      win_rate := round2 (calculate_win_rate trades),
      profit_factor := round2 (calculate_profit_factor trades),
      total_return := round2 (if trades = [] then 0 else pnls.sum),
      total_return_pct :=
        round2 (if trades = [] then 0 else pnls.sum / initial * 100),
      total_trades := trades.length,
      winning_trades := pos.length,
      losing_trades := neg.length,
      gross_profit := round2 (if pos = [] then 0 else pos.sum),
      gross_loss := round2 (if neg = [] then 0 else neg.sum),
      avg_win := round2 (if pos = [] then 0 else pos.sum / pos.length),
      avg_loss := round2 (if neg = [] then 0 else neg.sum / neg.length),
      final_equity :=
        match eq.getLast? with
        | none => initial
        | some r => round2 r.equity },
    equity_curve := eq.map (fun r => { time := r.time, equity := r.equity }),
    drawdown_series :=
      ddSeries.map (fun r => { time := r.time, drawdown_pct := r.drawdown_pct }) }

/-- `models.BacktestResult`. -/
structure BacktestResult where
  symbol : String
  timeframe : String
  strategy_name : String
  initial_capital : ℚ
  metrics : PerformanceMetrics
  equity_curve : List EquityPoint
  drawdown_series : List DrawdownPoint
  trades : List Trade

/-- `Backtester._build_result`. -/
def buildResult (req : BacktestRequest) (trades : List Trade)
    (a : AnalyticsRes) : BacktestResult :=
  { symbol := req.symbol, timeframe := req.timeframe,
    strategy_name := req.strategy, initial_capital := req.initial_capital,
    metrics := a.metrics, equity_curve := a.equity_curve,
    drawdown_series := a.drawdown_series, trades := trades }

/-- `Backtester._empty_result`: all metrics zero, final equity at the
initial capital, empty curves and trade list. -/
def emptyResult (req : BacktestRequest) : BacktestResult :=
  { symbol := req.symbol, timeframe := req.timeframe,
    strategy_name := req.strategy, initial_capital := req.initial_capital,
    metrics :=
    { sharpe_ratio := 0, sortino_ratio := 0,
      max_drawdown := 0, max_drawdown_pct := 0,
      win_rate := 0, profit_factor := 0,
      total_return := 0, total_return_pct := 0,
      total_trades := 0, winning_trades := 0, losing_trades := 0,
      gross_profit := 0, gross_loss := 0, avg_win := 0, avg_loss := 0,
      final_equity := req.initial_capital },
    equity_curve := [], drawdown_series := [], trades := [] }

/-- `Backtester.run`: short-circuit to the empty result on insufficient
data (`not data or len(data) < sma_slow + 10`), else execute the selected
strategy and assemble the analytics; a `TypeError` raised during signal
evaluation propagates. -/
noncomputable def Backtester_run (data : List CandleQ) (req : BacktestRequest)
    (logic : Option StrategyLogic) : Except String BacktestResult :=
  if data = [] ∨ data.length < req.sma_slow + 10 then .ok (emptyResult req)
  else
    match tradesPhase data req logic with
    | .error e => .error e
    | .ok trades =>
        .ok (buildResult req trades
          (calculate_all_metrics req.initial_capital trades data))

/-! ## `IndicatorFactory.calculate` (`engine.py` lines 38-65)

The generic dispatcher (not on the `run` path, which calls the individual
indicator functions directly).  It is modelled on the close column, the
default every engine call site uses; `**params` is flattened into a record
with the indicator defaults. -/

/-- Result shape of `IndicatorFactory.calculate`: a single series, the
MACD triple, or the real-valued Bollinger triple. -/
inductive IndOut
  | ser (xs : List (Option ℚ))
  | triple (a b c : List (Option ℚ))
  | tripleR (a b c : List (Option ℝ))

/-- Keyword parameters of `IndicatorFactory.calculate` with their
defaults. -/
structure CalcParams where
  period : ℕ := 20
  std_dev : ℚ := 2
  fast : ℕ := 12
  slow : ℕ := 26
  signal : ℕ := 9
deriving DecidableEq

/-- `IndicatorFactory.calculate`: name dispatch (upper-cased); an unknown
indicator name falls back to the raw close series. -/
noncomputable def IndicatorFactory_calculate (closes : List ℚ) (indicator_name : String)
    (p : CalcParams) : IndOut :=
  let name := strUpper indicator_name
  if name = "SMA" then .ser (smaList p.period closes)
  else if name = "EMA" then .ser ((emaList p.period closes).map some)
  else if name = "RSI" then .ser ((rsiList closes p.period).map PFloat.toOption)
  else if name = "MACD" then
    let t := macdTriple closes p.fast p.slow p.signal
    .triple (t.1.map some) (t.2.1.map some) (t.2.2.map some)
  else if name = "BOLLINGER" ∨ name = "BB" then
    let t := bollingerTriple p.period p.std_dev closes
    .tripleR t.1 t.2.1 t.2.2
  else .ser (closes.map some)

/-! ## Concrete inputs used by witnesses and counterexamples -/

/-- A degenerate candle: all four price fields at `c`, unit volume. -/
def mkCandle (t : ℤ) (c : ℚ) : CandleQ :=
  { time := t, opn := c, high := c, low := c, close := c, volume := 1 }

/-- Twenty closes: a fall from 20 to 11, a spike to 30, then flat at
30.00001.  With SMA periods 2/10 this produces exactly one upward
crossover (index 10) whose dynamic-strategy exit lands on index 11, a
winning trade of exact pnl `1/100000`. -/
def cexCloses : List ℚ :=
  [20, 19, 18, 17, 16, 15, 14, 13, 12, 11, 30, 30.00001, 30.00001, 30.00001,
   30.00001, 30.00001, 30.00001, 30.00001, 30.00001, 30.00001]

/-- The candles for the counterexample runs (times 0,…,19: strictly
ascending). -/
def cexCandles : List CandleQ :=
  List.zipWith (fun i c => mkCandle i c) ((List.range 20).map (fun n => (n : ℤ))) cexCloses

/-- Request with the smallest pydantic-valid SMA periods `2`/`10` (so 20
candles pass the `sma_slow + 10` warm-up check). -/
def cexReq : BacktestRequest :=
  { symbol := "BTC/USDT", timeframe := "1h", limit := 500,
    initial_capital := 10000, strategy := "sma_crossover",
    sma_fast := 2, sma_slow := 10 }

/-- A declarative spec with an `indicators` key and empty rule lists: it
routes to the dynamic executor, whose empty-`entry_rules` branch falls
back to the SMA crossover. -/
def cexLogic : StrategyLogic :=
  { indicators := some [], entry_rules := [], exit_rules := [] }

/-- A declarative spec whose RSI entry rule references the `rsi_14` column
without any RSI indicator having been computed. -/
def cexLogicRsi : StrategyLogic :=
  { indicators := some [],
    entry_rules := [{ indicator := "rsi", threshold := some (Operand.num 30),
                      condition := "oversold" }],
    exit_rules := [] }

/-- The single trade produced by the dynamic strategy on `cexCandles`:
entry at the index-10 crossover (close 30), signal exit at index 11
(close 30.00001).  Its exact pnl `1/100000` rounds to a stored `pnl` of 0
while the outcome is classified `win`. -/
def cexTrade : Trade :=
  { entry_time := 10, exit_time := 11, entry_price := 30,
    exit_price := 30.00001, pnl := 0, pnl_percent := 0,
    type := TradeType.long, status := TradeStatus.win }

/-- The per-trade invariants of the simulation loop: exit strictly after
entry, the outcome classifying the sign of the *exact* pnl
`exit_price - entry_price`, and the stored `pnl` field being that exact
pnl rounded (half-even) to 4 decimals. -/
def tradeOutcomeOk (t : Trade) : Prop :=
  t.entry_time < t.exit_time
  ∧ (t.status = TradeStatus.win ↔ 0 < t.exit_price - t.entry_price)
  ∧ (t.status = TradeStatus.loss ↔ t.exit_price - t.entry_price < 0)
  ∧ (t.status = TradeStatus.breakeven ↔ t.exit_price - t.entry_price = 0)
  ∧ t.pnl = round4 (t.exit_price - t.entry_price)

/-- A one-row frame for witnesses. -/
def toyDF : DF := { rows := [mkCandle 0 5], cols := [] }

/-- A spec whose single exit rule carries only a condition payload. -/
def toyLogicExit : StrategyLogic :=
  { indicators := some [], entry_rules := [],
    exit_rules := [{ condition := "rsi_overbought", stop_loss_pct := none,
                     take_profit_pct := none }] }

/-- A different exit-rule list with the same (absent) stop-loss. -/
def toyRules2 : List ExitRule :=
  [{ condition := "price_below_entry", stop_loss_pct := none,
     take_profit_pct := some 5 }]

/-! ## Helper lemmas -/

unseal Rat.add Rat.mul Rat.inv Rat.sub Rat.ofScientific

theorem cellAt_map_some (a : List ℚ) (i : ℕ) : cellAt (a.map some) i = a.get? i := by
  unfold cellAt
  rw [List.get?_map]
  cases a.get? i <;> rfl

theorem exceptOk_of_toOption {α : Type} {e : Except String α} {l : α}
    (h : e.toOption = some l) : e = .ok l := by
  cases e with
  | ok a => simpa [Except.toOption] using h
  | error b => simp [Except.toOption] at h

theorem get?_eq_some_getD (a : List ℚ) (i : ℕ) (h : i < a.length) :
    a.get? i = some (a.getD i 0) := by
  rw [List.getD_eq_get? a i 0]
  cases hg : a.get? i with
  | none => rw [List.get?_eq_none] at hg; omega
  | some v => rfl

/-! ## C4: the crossing comparators -/

/-- C4: `crosses_above(a,b)` at index `i` is exactly
`i ≠ 0 AND a[i-1] <= b[i-1] AND a[i] > b[i]`, `crosses_below` is the
mirror, and index 0 is a defined `false` for every (fully defined) input. -/
theorem crosses_comparators_spec :
    (∀ (a b : List ℚ), a ≠ [] → b ≠ [] →
      (crossesAboveL (a.map some) (b.map some)).get? 0 = some false
      ∧ (crossesBelowL (a.map some) (b.map some)).get? 0 = some false)
    ∧ (∀ (a b : List ℚ) (i : ℕ), i < a.length → i < b.length →
      (crossesAboveL (a.map some) (b.map some)).get? i
        = some (decide (i ≠ 0) && decide (a.getD (i-1) 0 ≤ b.getD (i-1) 0)
            && decide (b.getD i 0 < a.getD i 0))
      ∧ (crossesBelowL (a.map some) (b.map some)).get? i
        = some (decide (i ≠ 0) && decide (b.getD (i-1) 0 ≤ a.getD (i-1) 0)
            && decide (a.getD i 0 < b.getD i 0))) := by
  have main : ∀ (a b : List ℚ) (i : ℕ), i < a.length → i < b.length →
      (crossesAboveL (a.map some) (b.map some)).get? i
        = some (decide (i ≠ 0) && decide (a.getD (i-1) 0 ≤ b.getD (i-1) 0)
            && decide (b.getD i 0 < a.getD i 0))
      ∧ (crossesBelowL (a.map some) (b.map some)).get? i
        = some (decide (i ≠ 0) && decide (b.getD (i-1) 0 ≤ a.getD (i-1) 0)
            && decide (a.getD i 0 < b.getD i 0)) := by
    intro a b i ha hb
    have hmin : i < min (a.map some).length (b.map some).length := by
      simp [List.length_map]; omega
    constructor
    · unfold crossesAboveL
      rw [List.get?_map, List.get?_range hmin]
      cases i with
      | zero => simp [shiftCell, optLe]
      | succ j =>
          have hja : j < a.length := by omega
          have hjb : j < b.length := by omega
          have hne : ¬(j + 1 = 0) := Nat.succ_ne_zero j
          simp only [Option.map_some', shiftCell, cellAt_map_some, hne,
            if_false, Nat.add_sub_cancel]
          rw [get?_eq_some_getD a j hja, get?_eq_some_getD b j hjb,
            get?_eq_some_getD a (j+1) ha, get?_eq_some_getD b (j+1) hb]
          simp [optLe, optGt]
    · unfold crossesBelowL
      rw [List.get?_map, List.get?_range hmin]
      cases i with
      | zero => simp [shiftCell, optGe]
      | succ j =>
          have hja : j < a.length := by omega
          have hjb : j < b.length := by omega
          have hne : ¬(j + 1 = 0) := Nat.succ_ne_zero j
          simp only [Option.map_some', shiftCell, cellAt_map_some, hne,
            if_false, Nat.add_sub_cancel]
          rw [get?_eq_some_getD a j hja, get?_eq_some_getD b j hjb,
            get?_eq_some_getD a (j+1) ha, get?_eq_some_getD b (j+1) hb]
          simp [optGe, optLt]
  refine ⟨?_, main⟩
  intro a b ha hb
  have h0a : 0 < a.length := List.length_pos.mpr ha
  have h0b : 0 < b.length := List.length_pos.mpr hb
  have := main a b 0 h0a h0b
  simpa using this

/-- Witness for C4 at a concrete crossing: `a = [1,2]`, `b = [2,1]`,
index 1. -/
theorem crosses_comparators_spec_witness :
    ((1:ℕ) < ([(1:ℚ), 2]).length ∧ (1:ℕ) < ([(2:ℚ), 1]).length)
    ∧ (crossesAboveL ([(1:ℚ), 2].map some) ([(2:ℚ), 1].map some)).get? 1
      = some (decide ((1:ℕ) ≠ 0)
          && decide (([(1:ℚ), 2]).getD 0 0 ≤ ([(2:ℚ), 1]).getD 0 0)
          && decide (([(2:ℚ), 1]).getD 1 0 < ([(1:ℚ), 2]).getD 1 0)) :=
  ⟨⟨by decide, by decide⟩,
    (crosses_comparators_spec.2 [1, 2] [2, 1] 1 (by decide) (by decide)).1⟩

/-! ## C5: RSI with a zero average loss -/

/-- C5 (amended): at any index where the trailing average loss is zero and
the trailing average gain is positive, the RSI is exactly 100 (the `0/0`
flat-window case instead propagates NaN, see the counterexample). -/
theorem rsi_zero_loss_hundred (xs : List ℚ) (p i : ℕ) (g : ℚ)
    (hl : (rsiAvgLoss p xs).get? i = some (some 0))
    (hg : (rsiAvgGain p xs).get? i = some (some g))
    (hgpos : 0 < g) :
    (rsiList xs p).get? i = some (PFloat.num 100) := by
  unfold rsiList
  rw [List.get?_zipWith', hg, hl]
  simp only [Option.map_some', Option.some_bind]
  simp [pOf, PFloat.div, PFloat.add, PFloat.sub, hgpos, hgpos.ne', not_lt.mpr hgpos.le]

/-- Counterexample to C5 as stated: on the flat series `[5,5,5]` with
period 2, the average loss at index 1 is zero yet the RSI there is NaN,
not 100 (both average gain and average loss vanish, so `rs = 0/0`). -/
theorem rsi_flat_window_nan_cex :
    (rsiAvgLoss 2 [5, 5, 5]).get? 1 = some (some 0)
    ∧ (rsiList [5, 5, 5] 2).get? 1 = some PFloat.nan
    ∧ PFloat.nan ≠ PFloat.num 100 := by decide

/-- Witness for C5 (amended) on the rising series `[1,2,3]`, period 2. -/
theorem rsi_zero_loss_hundred_witness :
    (rsiAvgLoss 2 [1, 2, 3]).get? 1 = some (some 0)
    ∧ (rsiAvgGain 2 [1, 2, 3]).get? 1 = some (some (1/2))
    ∧ ((0:ℚ) < 1/2)
    ∧ (rsiList [1, 2, 3] 2).get? 1 = some (PFloat.num 100) :=
  ⟨by decide, by decide, by norm_num,
    rsi_zero_loss_hundred [1, 2, 3] 2 1 (1/2) (by decide) (by decide) (by norm_num)⟩

/-! ## C8: Sortino with no downside returns -/

/-- C8: with no negative excess returns the Sortino ratio is exactly the
capped sentinel 10.0 when the mean excess return is positive and exactly
0 otherwise (in particular on the empty series) — never infinite. -/
theorem sortino_no_downside (returns : List ℚ) (rf : ℚ)
    (h : (returns.map (fun r => r - rf / 365)).filter (fun r => r < 0) = []) :
    calculate_sortino_ratio returns rf
      = if 0 < (returns.map (fun r => r - rf / 365)).sum / ((returns.length : ℚ))
        then (10 : ℝ) else 0 := by
  unfold calculate_sortino_ratio
  by_cases hret : returns = []
  · subst hret; simp
  · rw [if_neg hret]
    simp [h, List.length_map]

/-- Witness for C8: a single positive return, zero risk-free rate. -/
theorem sortino_no_downside_witness :
    (([(1:ℚ)/10].map (fun r => r - 0 / 365)).filter (fun r => r < 0) = [])
    ∧ calculate_sortino_ratio [1/10] 0 = 10 := by
  refine ⟨by decide, ?_⟩
  rw [sortino_no_downside [1/10] 0 (by decide)]
  norm_num

/-! ## C9: the drawdown percentage series -/

/-- Counterexample to C9 as stated: the equity curve `[-10, -20, 5]`
contains a positive value, yet `drawdown_pct` at index 1 is `+100`
(the running maximum is negative there), violating "every point ≤ 0". -/
theorem drawdown_pct_positive_cex :
    ((5:ℚ) ∈ ([-10, -20, 5] : List ℚ) ∧ (0:ℚ) < 5)
    ∧ (drawdownPctList [-10, -20, 5]).get? 1 = some 100
    ∧ ¬((100:ℚ) ≤ 0) := by decide

theorem runningMaxFrom_length (m : ℚ) (xs : List ℚ) :
    (runningMaxFrom m xs).length = xs.length := by
  induction xs generalizing m with
  | nil => rfl
  | cons x t ih => simp [runningMaxFrom, ih]

theorem runningMax_length (xs : List ℚ) : (runningMax xs).length = xs.length := by
  cases xs with
  | nil => rfl
  | cons x t => simp [runningMax, runningMaxFrom_length]

theorem drawdownPct_from_nonpos (t : List ℚ) : ∀ (m : ℚ), 0 ≤ m →
    ∀ x ∈ (t.zip (runningMaxFrom m t)).map
      (fun p => if p.2 = 0 then 0 else (p.1 - p.2) / p.2 * 100), x ≤ 0 := by
  induction t with
  | nil => intro m _ x hx; simp [runningMaxFrom] at hx
  | cons y ys ih =>
      intro m hm x hx
      simp only [runningMaxFrom, List.zip_cons_cons, List.map_cons,
        List.mem_cons] at hx
      rcases hx with hx | hx
      · subst hx
        by_cases hz : max m y = 0
        · simp [hz]
        · rw [if_neg hz]
          have hpos : 0 < max m y :=
            lt_of_le_of_ne (le_trans hm (le_max_left m y)) (Ne.symm hz)
          have hnum : y - max m y ≤ 0 := sub_nonpos.mpr (le_max_right m y)
          have hdiv : (y - max m y) / max m y ≤ 0 :=
            div_nonpos_iff.mpr (Or.inr ⟨hnum, hpos.le⟩)
          nlinarith
      · exact ih (max m y) (le_trans hm (le_max_left m y)) x hx

/-- C9 (amended): for every equity curve whose first value is nonnegative
(hence whose running maximum is nonnegative throughout — true of every
curve the analyzer builds, which starts at the initial capital), every
point of `drawdown_pct` is ≤ 0; and wherever the running maximum is 0 the
value is forced to 0 (the `replace/fillna` arm), for any curve at all. -/
theorem drawdown_pct_nonpos (equity : List ℚ) (h : ℚ)
    (hh : equity.head? = some h) (h0 : 0 ≤ h) :
    (∀ x ∈ drawdownPctList equity, x ≤ 0)
    ∧ (∀ (eqc : List ℚ) (i : ℕ) (m : ℚ), (runningMax eqc).get? i = some m → m = 0 →
        (drawdownPctList eqc).get? i = some 0) := by
  constructor
  · cases equity with
    | nil => cases hh
    | cons a t =>
        have ha : a = h := by simpa using hh
        subst ha
        intro x hx
        unfold drawdownPctList runningMax at hx
        simp only [List.zip_cons_cons, List.map_cons, List.mem_cons] at hx
        rcases hx with hx | hx
        · subst hx
          by_cases hz : a = 0
          · simp [hz]
          · rw [if_neg hz]; simp
        · exact drawdownPct_from_nonpos t a h0 x hx
  · intro eqc i m hm hm0
    subst hm0
    have hi : i < eqc.length := by
      have : i < (runningMax eqc).length := by
        by_contra hcon
        rw [List.get?_eq_none.mpr (le_of_not_lt hcon)] at hm
        cases hm
      rwa [runningMax_length] at this
    obtain ⟨e, he⟩ : ∃ e, eqc.get? i = some e := by
      cases hg : eqc.get? i with
      | none => rw [List.get?_eq_none] at hg; omega
      | some v => exact ⟨v, rfl⟩
    unfold drawdownPctList
    rw [show eqc.zip (runningMax eqc) = List.zipWith Prod.mk eqc (runningMax eqc)
      from rfl]
    rw [List.get?_map, List.get?_zipWith', he, hm]
    simp

/-- Witness for C9 (amended) on the curve `[10, 5, 20]`, whose middle
drawdown percentage is `-50`. -/
theorem drawdown_pct_nonpos_witness :
    (([(10:ℚ), 5, 20]).head? = some 10) ∧ ((0:ℚ) ≤ 10)
    ∧ ((-50:ℚ) ∈ drawdownPctList [10, 5, 20]) ∧ ((-50:ℚ) ≤ 0) :=
  ⟨rfl, by norm_num, by decide,
    (drawdown_pct_nonpos [10, 5, 20] 10 rfl (by norm_num)).1 (-50) (by decide)⟩

/-! ## C2: the insufficient-data short-circuit -/

/-- C2: with fewer than `sma_slow + 10` candles (the empty sequence
included), `run` returns the well-formed empty result: no trades, an
empty (hence vacuously flat) equity curve, and the final equity pinned at
the initial capital. -/
theorem run_short_circuit (data : List CandleQ) (req : BacktestRequest)
    (logic : Option StrategyLogic) (h : data.length < req.sma_slow + 10) :
    Backtester_run data req logic = Except.ok (emptyResult req)
    ∧ (emptyResult req).trades = []
    ∧ (emptyResult req).equity_curve = []
    ∧ (∀ p ∈ (emptyResult req).equity_curve, p.equity = req.initial_capital)
    ∧ (emptyResult req).metrics.final_equity = req.initial_capital
    ∧ (emptyResult req).metrics.total_trades = 0 := by
  refine ⟨?_, rfl, rfl, by simp [emptyResult], rfl, rfl⟩
  unfold Backtester_run
  rw [if_pos (Or.inr h)]

/-- Witness for C2 on a one-candle input. -/
theorem run_short_circuit_witness :
    (([mkCandle 0 1]).length < cexReq.sma_slow + 10)
    ∧ Backtester_run [mkCandle 0 1] cexReq none = Except.ok (emptyResult cexReq)
    ∧ (emptyResult cexReq).trades = [] :=
  ⟨by decide, (run_short_circuit [mkCandle 0 1] cexReq none (by decide)).1,
    (run_short_circuit [mkCandle 0 1] cexReq none (by decide)).2.1⟩

/-! ## Dataframe column lemmas -/

theorem addCol_rows (df : DF) (n : String) (xs : List (Option ℚ)) :
    (df.addCol n xs).rows = df.rows := by
  unfold DF.addCol; split <;> rfl

theorem addCol_closes (df : DF) (n : String) (xs : List (Option ℚ)) :
    (df.addCol n xs).closes = df.closes := by
  unfold DF.closes; rw [addCol_rows]

theorem find?_map_replace (n : String) (xs : List (Option ℚ)) :
    ∀ (l : List (String × List (Option ℚ))), l.any (fun c => c.1 = n) = true →
      (l.map (fun c => if c.1 = n then (n, xs) else c)).find?
        (fun c => c.1 = n) = some (n, xs) := by
  intro l
  induction l with
  | nil => intro h; cases h
  | cons c cs ih =>
      intro h
      by_cases hc : c.1 = n
      · rw [List.map_cons, if_pos hc, List.find?_cons_of_pos _ (by simp)]
      · rw [List.map_cons, if_neg hc, List.find?_cons_of_neg _ (by simp [hc])]
        apply ih
        simpa [hc] using h

theorem find?_map_replace_ne (n m : String) (xs : List (Option ℚ)) (h : m ≠ n) :
    ∀ (l : List (String × List (Option ℚ))),
      (l.map (fun c => if c.1 = n then (n, xs) else c)).find? (fun c => c.1 = m)
        = l.find? (fun c => c.1 = m) := by
  intro l
  induction l with
  | nil => rfl
  | cons c cs ih =>
      by_cases hc : c.1 = n
      · rw [List.map_cons, if_pos hc,
          List.find?_cons_of_neg _ (by simp [Ne.symm h]),
          List.find?_cons_of_neg _ (by simp [hc, Ne.symm h])]
        exact ih
      · by_cases hm : c.1 = m
        · rw [List.map_cons, if_neg hc, List.find?_cons_of_pos _ (by simp [hm]),
            List.find?_cons_of_pos _ (by simp [hm])]
        · rw [List.map_cons, if_neg hc, List.find?_cons_of_neg _ (by simp [hm]),
            List.find?_cons_of_neg _ (by simp [hm])]
          exact ih

theorem findCol_addCol_self (df : DF) (n : String) (xs : List (Option ℚ)) :
    (df.addCol n xs).findCol n = some xs := by
  unfold DF.addCol DF.findCol
  by_cases h : df.cols.any (fun c => c.1 = n)
  · rw [if_pos h]
    simp only
    rw [find?_map_replace n xs df.cols h]
    rfl
  · rw [if_neg h]
    simp only
    rw [List.find?_append]
    have hf : df.cols.any (fun c => c.1 = n) = false := Bool.eq_false_iff.mpr h
    have hnone : df.cols.find? (fun c => decide (c.1 = n)) = none := by
      rw [List.find?_eq_none]
      intro x hx
      simpa using List.any_eq_false.mp hf x hx
    rw [hnone]
    simp [List.find?]

theorem findCol_addCol_ne (df : DF) (n m : String) (xs : List (Option ℚ))
    (h : m ≠ n) : (df.addCol n xs).findCol m = df.findCol m := by
  unfold DF.addCol DF.findCol
  by_cases hc : df.cols.any (fun c => c.1 = n)
  · rw [if_pos hc]
    simp only
    rw [find?_map_replace_ne n m xs h df.cols]
  · rw [if_neg hc]
    simp only
    rw [List.find?_append]
    cases hf : df.cols.find? (fun c => decide (c.1 = m)) with
    | some v => rfl
    | none => simp [List.find?, Ne.symm h]

theorem baseCol_addCol (df : DF) (n m : String) (xs : List (Option ℚ)) :
    (df.addCol n xs).baseCol m = df.baseCol m := by
  unfold DF.baseCol
  simp only [addCol_rows]

theorem resolveOperand_found (df : DF) (s : String) (xs : List (Option ℚ))
    (h : df.findCol s = some xs) :
    resolveOperand df (Operand.str s) = RSeries.nums xs := by
  show (if df.hasCol s then RSeries.nums (df.getCol s)
    else RSeries.strs s df.length) = RSeries.nums xs
  unfold DF.hasCol DF.getCol
  rw [h]
  simp

theorem addFallbackCols_findCol_fast (df : DF) (req : BacktestRequest) :
    (addFallbackCols df req).findCol "sma_fast"
      = some (smaList req.sma_fast df.closes) := by
  unfold addFallbackCols
  rw [findCol_addCol_ne _ _ _ _ (by decide), findCol_addCol_self]

theorem addFallbackCols_findCol_slow (df : DF) (req : BacktestRequest) :
    (addFallbackCols df req).findCol "sma_slow"
      = some (smaList req.sma_slow df.closes) :=
  findCol_addCol_self _ _ _

/-! ## Run-level helpers -/

theorem run_trades_of_ok (data : List CandleQ) (req : BacktestRequest)
    (logic : Option StrategyLogic) (ts : List Trade)
    (hlen : ¬(data = [] ∨ data.length < req.sma_slow + 10))
    (h : tradesPhase data req logic = .ok ts) :
    (Backtester_run data req logic).map (fun r => r.trades) = .ok ts := by
  unfold Backtester_run
  rw [if_neg hlen, h]
  rfl

theorem run_err_of_error (data : List CandleQ) (req : BacktestRequest)
    (logic : Option StrategyLogic) (e : String)
    (hlen : ¬(data = [] ∨ data.length < req.sma_slow + 10))
    (h : tradesPhase data req logic = .error e) :
    Backtester_run data req logic = .error e := by
  unfold Backtester_run
  rw [if_neg hlen, h]

theorem run_ok_trades (data : List CandleQ) (req : BacktestRequest)
    (logic : Option StrategyLogic) (res : BacktestResult)
    (h : Backtester_run data req logic = .ok res) :
    res.trades = [] ∨ tradesPhase data req logic = .ok res.trades := by
  unfold Backtester_run at h
  split at h
  · cases h; exact Or.inl rfl
  · cases hE : tradesPhase data req logic with
    | error e => rw [hE] at h; cases h
    | ok ts =>
        rw [hE] at h
        change Except.ok (buildResult req ts
          (calculate_all_metrics req.initial_capital ts data)) = Except.ok res at h
        cases h
        have hbt : (buildResult req ts
            (calculate_all_metrics req.initial_capital ts data)).trades = ts := rfl
        rw [hbt]
        exact Or.inr rfl

/-! ## C6: empty entry rules -/

/-- C6 (amended): on an empty `entry_rules` list the dynamic executor does
*not* produce an all-false entry signal; it falls back to the default
`sma_fast`/`sma_slow` crossover entry condition (so trades can occur, see
the counterexample).  `SignalEvaluator.evaluate_rules` itself does return
all-false on an empty rule list, but the engine never calls it there. -/
theorem empty_entry_rules_fallback (df : DF) (req : BacktestRequest)
    (l : StrategyLogic) (h : l.entry_rules = []) :
    (entrySignalStep df req l).2
      = Except.ok (crossesAboveL (smaList req.sma_fast df.closes)
          (smaList req.sma_slow df.closes))
    ∧ evaluate_rules df [] = Except.ok (List.replicate df.length false) := by
  constructor
  · unfold entrySignalStep
    rw [if_pos h]
    show evaluate_condition (addFallbackCols df req) fallbackCondition = _
    unfold evaluate_condition
    rw [show fallbackCondition.left = Operand.str "sma_fast" from rfl,
      show fallbackCondition.right = Operand.str "sma_slow" from rfl,
      resolveOperand_found _ _ _ (addFallbackCols_findCol_fast df req),
      resolveOperand_found _ _ _ (addFallbackCols_findCol_slow df req)]
    rfl
  · unfold evaluate_rules
    rw [if_pos rfl]

/-- Witness for C6 (amended) on a one-candle frame. -/
theorem empty_entry_rules_fallback_witness :
    cexLogic.entry_rules = []
    ∧ (entrySignalStep toyDF cexReq cexLogic).2
      = Except.ok (crossesAboveL (smaList cexReq.sma_fast toyDF.closes)
          (smaList cexReq.sma_slow toyDF.closes)) :=
  ⟨rfl, (empty_entry_rules_fallback toyDF cexReq cexLogic rfl).1⟩

/-- Counterexample to C6 as stated: a spec with empty `entry_rules` on
`cexCandles` (which pass the warm-up check) produces one trade, not
zero. -/
theorem empty_entry_rules_trades_cex :
    cexLogic.entry_rules = []
    ∧ cexCandles.length = cexReq.sma_slow + 10
    ∧ (Backtester_run cexCandles cexReq (some cexLogic)).map (fun r => r.trades)
      = Except.ok [cexTrade]
    ∧ ([cexTrade] : List Trade) ≠ [] := by
  refine ⟨rfl, by decide, ?_, by decide⟩
  exact run_trades_of_ok _ _ _ _ (by decide) (exceptOk_of_toOption (by decide))

/-! ## C10: exit rules beyond the stop-loss are ignored -/

/-- C10: the dynamic executor reads `exit_rules` only through the
stop-loss extraction — two specs differing arbitrarily in their exit
conditions but with equal extracted stop-loss run identically — and the
signal-based exit at index `i ≥ 1` is exactly
`entry_signal[i-1] AND NOT entry_signal[i]` (false at index 0). -/
theorem exit_rules_only_stop_loss (df : DF) (req : BacktestRequest)
    (l : StrategyLogic) (rules2 : List ExitRule)
    (h : extractStopLoss l.exit_rules = extractStopLoss rules2) :
    execDynamic df req l = execDynamic df req { l with exit_rules := rules2 }
    ∧ (∀ (es : List Bool) (i : ℕ),
        (exitFromEntry es).get? (i + 1)
          = (es.get? i).bind (fun prev =>
              (es.get? (i + 1)).map (fun cur => prev && !cur)))
    ∧ (∀ es : List Bool, es ≠ [] → (exitFromEntry es).get? 0 = some false) := by
  refine ⟨?_, ?_, ?_⟩
  · unfold execDynamic
    rw [h]
    rfl
  · intro es i
    cases es with
    | nil => simp [exitFromEntry]
    | cons e t =>
        show (false :: List.zipWith (fun prev cur => prev && !cur) (e :: t) t).get? (i + 1) = _
        rw [List.get?_cons_succ, List.get?_zipWith', List.get?_cons_succ]
        cases h1 : (e :: t).get? i <;> cases h2 : t.get? i <;> simp [h1, h2]
  · intro es hne
    cases es with
    | nil => exact absurd rfl hne
    | cons e t => rfl

/-- Witness for C10: two specs whose exit rules differ in their condition
payloads (and a take-profit field) but agree on the absent stop-loss. -/
theorem exit_rules_only_stop_loss_witness :
    execDynamic toyDF cexReq toyLogicExit
      = execDynamic toyDF cexReq { toyLogicExit with exit_rules := toyRules2 }
    ∧ (exitFromEntry [true, false]).get? 1 = some true :=
  ⟨(exit_rules_only_stop_loss toyDF cexReq toyLogicExit toyRules2 rfl).1,
    by decide⟩

/-! ## C7: permissive fallbacks and the mixed-type TypeError -/

/-- C7 (amended): unknown indicator kinds fall back to the raw close
series, and an operand naming no column is substituted as a broadcast
literal; evaluation yields a result whenever both operands resolve to
numeric series.  (It is not total: a substituted string literal under an
order comparator against a numeric series raises, see the
counterexample.) -/
theorem permissive_fallbacks :
    (∀ (closes : List ℚ) (name : String) (p : CalcParams),
        strUpper name ∉ (["SMA", "EMA", "RSI", "MACD", "BOLLINGER", "BB"] : List String) →
        IndicatorFactory_calculate closes name p = IndOut.ser (closes.map some))
    ∧ (∀ (df : DF) (c : Condition) (xs ys : List (Option ℚ)),
        resolveOperand df c.left = RSeries.nums xs →
        resolveOperand df c.right = RSeries.nums ys →
        evaluate_condition df c = Except.ok (numCmp c.op xs ys))
    ∧ (∀ (df : DF) (s : String), df.hasCol s = false →
        resolveOperand df (Operand.str s) = RSeries.strs s df.length) := by
  refine ⟨?_, ?_, ?_⟩
  · intro closes name p h
    simp only [List.mem_cons, List.not_mem_nil, or_false, not_or] at h
    obtain ⟨h1, h2, h3, h4, h5, h6⟩ := h
    unfold IndicatorFactory_calculate
    rw [if_neg h1, if_neg h2, if_neg h3, if_neg h4, if_neg (by simp [h5, h6])]
  · intro df c xs ys hl hr
    unfold evaluate_condition
    rw [hl, hr]
    rfl
  · intro df s h
    unfold resolveOperand
    simp [h]

/-- Witness for C7 (amended): the unknown indicator `VWAP` and a numeric
condition on a one-candle frame. -/
theorem permissive_fallbacks_witness :
    IndicatorFactory_calculate [5] "VWAP"
      { period := 20, std_dev := 2, fast := 12, slow := 26, signal := 9 }
      = IndOut.ser (([5] : List ℚ).map some)
    ∧ evaluate_condition toyDF
        { left := Operand.num 1, op := ">", right := Operand.num 0 }
      = Except.ok (numCmp ">" (List.replicate toyDF.length (some 1))
          (List.replicate toyDF.length (some 0))) :=
  ⟨permissive_fallbacks.1 [5] "VWAP" _ (by decide),
   permissive_fallbacks.2.1 toyDF _ _ _ rfl rfl⟩

/-- Counterexample to C7 as stated: the spec whose RSI entry rule points
at the absent `rsi_14` column makes the whole run raise a `TypeError`
instead of completing. -/
theorem strategy_spec_raises_cex :
    tradesPhase cexCandles cexReq (some cexLogicRsi) = Except.error typeErrMsg
    ∧ Backtester_run cexCandles cexReq (some cexLogicRsi)
      = Except.error typeErrMsg := by
  have h1 : tradesPhase cexCandles cexReq (some cexLogicRsi)
      = Except.error typeErrMsg := rfl
  exact ⟨h1, run_err_of_error _ _ _ _ (by decide) h1⟩

/-! ## The simulation-loop invariants (C1 and C3) -/

theorem dynLoop_sound (slp : Option ℚ) :
    ∀ (rows : List ExecRow) (pos : Option Position),
      List.Pairwise (fun a b : ExecRow => a.time < b.time) rows →
      (∀ p, pos = some p → ∀ r ∈ rows, p.entry_time < r.time) →
      (∀ t ∈ dynLoop slp rows pos,
        t.entry_time < t.exit_time
        ∧ (∃ r ∈ rows, t.exit_time = r.time)
        ∧ ((∃ r ∈ rows, t.entry_time = r.time)
            ∨ ∃ p, pos = some p ∧ t.entry_time = p.entry_time))
      ∧ List.Chain' (fun t u : Trade => t.exit_time ≤ u.entry_time)
          (dynLoop slp rows pos) := by
  intro rows
  induction rows with
  | nil =>
      intro pos _ _
      exact ⟨by simp [dynLoop], by simp [dynLoop]⟩
  | cons r rs ih =>
      intro pos hp hpos
      have hrhead : ∀ a ∈ rs, r.time < a.time := (List.pairwise_cons.mp hp).1
      have hrtail := (List.pairwise_cons.mp hp).2
      cases pos with
      | none =>
          by_cases he : r.entry = true
          · have heq : dynLoop slp (r :: rs) none
                = dynLoop slp rs (some (openPos r slp)) := by
              simp [dynLoop, he]
            have hpos2 : ∀ p, some (openPos r slp) = some p →
                ∀ a ∈ rs, p.entry_time < a.time := by
              intro p hpe a ha
              cases hpe
              exact hrhead a ha
            have res := ih (some (openPos r slp)) hrtail hpos2
            rw [heq]
            refine ⟨?_, res.2⟩
            intro t ht
            obtain ⟨h1, h2, h3⟩ := res.1 t ht
            refine ⟨h1, ?_, ?_⟩
            · obtain ⟨a, ha, htt⟩ := h2
              exact ⟨a, List.mem_cons_of_mem r ha, htt⟩
            · rcases h3 with ⟨a, ha, htt⟩ | ⟨p, hpe, htt⟩
              · exact Or.inl ⟨a, List.mem_cons_of_mem r ha, htt⟩
              · cases hpe
                exact Or.inl ⟨r, List.mem_cons_self r rs, htt⟩
          · have heq : dynLoop slp (r :: rs) none = dynLoop slp rs none := by
              simp [dynLoop, he]
            have res := ih none hrtail (by intro p hpe; cases hpe)
            rw [heq]
            refine ⟨?_, res.2⟩
            intro t ht
            obtain ⟨h1, h2, h3⟩ := res.1 t ht
            refine ⟨h1, ?_, ?_⟩
            · obtain ⟨a, ha, htt⟩ := h2
              exact ⟨a, List.mem_cons_of_mem r ha, htt⟩
            · rcases h3 with ⟨a, ha, htt⟩ | ⟨p, hpe, _⟩
              · exact Or.inl ⟨a, List.mem_cons_of_mem r ha, htt⟩
              · cases hpe
      | some p =>
          have hpr : p.entry_time < r.time :=
            hpos p rfl r (List.mem_cons_self r rs)
          by_cases hx : (stopHit p r || r.exitS) = true
          · have heq : dynLoop slp (r :: rs) (some p)
                = mkTrade p r (stopHit p r) :: dynLoop slp rs none := by
              simp [dynLoop, hx]
            have res := ih none hrtail (by intro q hqe; cases hqe)
            rw [heq]
            constructor
            · intro t ht
              rcases List.mem_cons.mp ht with hteq | htmem
              · subst hteq
                refine ⟨hpr, ⟨r, List.mem_cons_self r rs, rfl⟩,
                  Or.inr ⟨p, rfl, rfl⟩⟩
              · obtain ⟨h1, h2, h3⟩ := res.1 t htmem
                refine ⟨h1, ?_, ?_⟩
                · obtain ⟨a, ha, htt⟩ := h2
                  exact ⟨a, List.mem_cons_of_mem r ha, htt⟩
                · rcases h3 with ⟨a, ha, htt⟩ | ⟨q, hqe, _⟩
                  · exact Or.inl ⟨a, List.mem_cons_of_mem r ha, htt⟩
                  · cases hqe
            · rw [List.chain'_cons']
              refine ⟨?_, res.2⟩
              intro u hu
              have humem : u ∈ dynLoop slp rs none := List.mem_of_mem_head? hu
              obtain ⟨_, _, h3⟩ := res.1 u humem
              rcases h3 with ⟨a, ha, htt⟩ | ⟨q, hqe, _⟩
              · have : r.time < a.time := hrhead a ha
                show (mkTrade p r (stopHit p r)).exit_time ≤ u.entry_time
                rw [show (mkTrade p r (stopHit p r)).exit_time = r.time from rfl,
                  htt]
                exact this.le
              · cases hqe
          · have heq : dynLoop slp (r :: rs) (some p)
                = dynLoop slp rs (some p) := by
              simp [dynLoop, hx]
            have hpos2 : ∀ q, some p = some q → ∀ a ∈ rs, q.entry_time < a.time := by
              intro q hqe a ha
              cases hqe
              exact hpos p rfl a (List.mem_cons_of_mem r ha)
            have res := ih (some p) hrtail hpos2
            rw [heq]
            refine ⟨?_, res.2⟩
            intro t ht
            obtain ⟨h1, h2, h3⟩ := res.1 t ht
            refine ⟨h1, ?_, ?_⟩
            · obtain ⟨a, ha, htt⟩ := h2
              exact ⟨a, List.mem_cons_of_mem r ha, htt⟩
            · rcases h3 with ⟨a, ha, htt⟩ | ⟨q, hqe, htt⟩
              · exact Or.inl ⟨a, List.mem_cons_of_mem r ha, htt⟩
              · cases hqe
                exact Or.inr ⟨p, rfl, htt⟩

theorem mkTrade_shape (p : Position) (r : ExecRow) (hit : Bool) :
    (mkTrade p r hit).pnl
      = round4 ((mkTrade p r hit).exit_price - (mkTrade p r hit).entry_price)
    ∧ (mkTrade p r hit).pnl_percent
      = round4 (((mkTrade p r hit).exit_price - (mkTrade p r hit).entry_price)
          / (mkTrade p r hit).entry_price * 100)
    ∧ ((mkTrade p r hit).status = TradeStatus.win
        ↔ 0 < (mkTrade p r hit).exit_price - (mkTrade p r hit).entry_price)
    ∧ ((mkTrade p r hit).status = TradeStatus.loss
        ↔ (mkTrade p r hit).exit_price - (mkTrade p r hit).entry_price < 0)
    ∧ ((mkTrade p r hit).status = TradeStatus.breakeven
        ↔ (mkTrade p r hit).exit_price - (mkTrade p r hit).entry_price = 0)
    ∧ (mkTrade p r hit).type = TradeType.long := by
  unfold mkTrade
  by_cases h1 : 0 < (if hit = true then p.stop_loss.getD 0 else r.close) - p.entry_price
  · simp [h1, not_lt.mpr h1.le, h1.ne']
  · by_cases h2 : (if hit = true then p.stop_loss.getD 0 else r.close) - p.entry_price < 0
    · simp [h1, h2, h2.ne]
    · have h3 : (if hit = true then p.stop_loss.getD 0 else r.close) - p.entry_price = 0 :=
        le_antisymm (not_lt.mp h1) (not_lt.mp h2)
      simp [h1, h2, h3]

theorem dynLoop_shape (slp : Option ℚ) :
    ∀ (rows : List ExecRow) (pos : Option Position), ∀ t ∈ dynLoop slp rows pos,
      t.pnl = round4 (t.exit_price - t.entry_price)
      ∧ t.pnl_percent = round4 ((t.exit_price - t.entry_price) / t.entry_price * 100)
      ∧ (t.status = TradeStatus.win ↔ 0 < t.exit_price - t.entry_price)
      ∧ (t.status = TradeStatus.loss ↔ t.exit_price - t.entry_price < 0)
      ∧ (t.status = TradeStatus.breakeven ↔ t.exit_price - t.entry_price = 0)
      ∧ t.type = TradeType.long := by
  intro rows
  induction rows with
  | nil => intro pos t ht; simp [dynLoop] at ht
  | cons r rs ih =>
      intro pos t ht
      cases pos with
      | none =>
          by_cases he : r.entry = true
          · rw [show dynLoop slp (r :: rs) none
                = dynLoop slp rs (some (openPos r slp)) from by simp [dynLoop, he]] at ht
            exact ih (some (openPos r slp)) t ht
          · rw [show dynLoop slp (r :: rs) none = dynLoop slp rs none from by
                simp [dynLoop, he]] at ht
            exact ih none t ht
      | some p =>
          by_cases hx : (stopHit p r || r.exitS) = true
          · rw [show dynLoop slp (r :: rs) (some p)
                = mkTrade p r (stopHit p r) :: dynLoop slp rs none from by
                simp [dynLoop, hx]] at ht
            rcases List.mem_cons.mp ht with hteq | htmem
            · subst hteq
              exact mkTrade_shape p r (stopHit p r)
            · exact ih none t htmem
          · rw [show dynLoop slp (r :: rs) (some p) = dynLoop slp rs (some p) from by
                simp [dynLoop, hx]] at ht
            exact ih (some p) t ht

theorem mkRows_time_mem :
    ∀ (cs : List CandleQ) (es xs ks : List Bool) (r : ExecRow),
      r ∈ mkRows cs es xs ks → ∃ c ∈ cs, r.time = c.time := by
  intro cs
  induction cs with
  | nil => intro es xs ks r hr; simp [mkRows] at hr
  | cons c ct ih =>
      intro es xs ks r hr
      unfold mkRows at hr
      by_cases hk : ks.headD false = true
      · rw [if_pos hk] at hr
        rcases List.mem_cons.mp hr with hre | hrm
        · subst hre; exact ⟨c, List.mem_cons_self c ct, rfl⟩
        · obtain ⟨d, hd, hdt⟩ := ih es.tail xs.tail ks.tail r hrm
          exact ⟨d, List.mem_cons_of_mem c hd, hdt⟩
      · rw [if_neg hk] at hr
        obtain ⟨d, hd, hdt⟩ := ih es.tail xs.tail ks.tail r hr
        exact ⟨d, List.mem_cons_of_mem c hd, hdt⟩

theorem mkRows_pairwise :
    ∀ (cs : List CandleQ) (es xs ks : List Bool),
      List.Pairwise (fun a b : CandleQ => a.time < b.time) cs →
      List.Pairwise (fun a b : ExecRow => a.time < b.time) (mkRows cs es xs ks) := by
  intro cs
  induction cs with
  | nil => intro es xs ks _; simp [mkRows]
  | cons c ct ih =>
      intro es xs ks hp
      have hhead : ∀ a ∈ ct, c.time < a.time := (List.pairwise_cons.mp hp).1
      have htail := (List.pairwise_cons.mp hp).2
      unfold mkRows
      by_cases hk : ks.headD false = true
      · rw [if_pos hk]
        refine List.pairwise_cons.mpr ⟨?_, ih es.tail xs.tail ks.tail htail⟩
        intro b hb
        obtain ⟨d, hd, hdt⟩ := mkRows_time_mem ct es.tail xs.tail ks.tail b hb
        show c.time < b.time
        rw [hdt]
        exact hhead d hd
      · rw [if_neg hk]
        exact ih es.tail xs.tail ks.tail htail

/-! ## Frame bookkeeping: column additions never change the candle rows -/

theorem addIndicator_rows (df : DF) (ind : IndicatorSpec) :
    (addIndicator df ind).rows = df.rows := by
  unfold addIndicator
  dsimp only
  repeat' split
  all_goals simp [addCol_rows]

theorem foldl_addIndicator_rows :
    ∀ (inds : List IndicatorSpec) (df : DF),
      (inds.foldl addIndicator df).rows = df.rows := by
  intro inds
  induction inds with
  | nil => intro df; rfl
  | cons i is ih =>
      intro df
      rw [List.foldl_cons, ih, addIndicator_rows]

theorem buildEntryConditions_rows (req : BacktestRequest) :
    ∀ (rules : List EntryRule) (df : DF),
      (buildEntryConditions req df rules).1.rows = df.rows := by
  intro rules
  induction rules with
  | nil => intro df; rfl
  | cons r rs ih =>
      intro df
      unfold buildEntryConditions
      dsimp only
      split_ifs
      all_goals rw [ih]
      all_goals simp [addCol_rows]

theorem addFallbackCols_rows (df : DF) (req : BacktestRequest) :
    (addFallbackCols df req).rows = df.rows := by
  unfold addFallbackCols
  rw [addCol_rows, addCol_rows]

theorem entrySignalStep_rows (df : DF) (req : BacktestRequest) (l : StrategyLogic) :
    (entrySignalStep df req l).1.rows = df.rows := by
  unfold entrySignalStep
  dsimp only
  split_ifs <;>
    simp [addFallbackCols_rows, buildEntryConditions_rows]

/-! ## From the strategy pathways to the loop invariants -/

theorem trades_of_mkRows (data : List CandleQ) (es xs ks : List Bool)
    (slp : Option ℚ)
    (hsorted : List.Pairwise (fun a b : CandleQ => a.time < b.time) data) :
    List.Chain' (fun t u : Trade => t.exit_time ≤ u.entry_time)
      (dynLoop slp (mkRows data es xs ks) none)
    ∧ ∀ t ∈ dynLoop slp (mkRows data es xs ks) none,
        t.entry_time < t.exit_time ∧ tradeOutcomeOk t := by
  have hpw := mkRows_pairwise data es xs ks hsorted
  have res := dynLoop_sound slp (mkRows data es xs ks) none hpw
    (by intro p hpe; cases hpe)
  refine ⟨res.2, ?_⟩
  intro t ht
  obtain ⟨h1, _, _⟩ := res.1 t ht
  obtain ⟨hp1, _, hw, hl, hb, _⟩ := dynLoop_shape slp (mkRows data es xs ks) none t ht
  exact ⟨h1, h1, hw, hl, hb, hp1⟩

theorem tradesPhase_trade_props (data : List CandleQ) (req : BacktestRequest)
    (logic : Option StrategyLogic) (ts : List Trade)
    (hsorted : List.Pairwise (fun a b : CandleQ => a.time < b.time) data)
    (h : tradesPhase data req logic = .ok ts) :
    List.Chain' (fun t u : Trade => t.exit_time ≤ u.entry_time) ts
    ∧ ∀ t ∈ ts, t.entry_time < t.exit_time ∧ tradeOutcomeOk t := by
  unfold tradesPhase at h
  have hsma : ∀ hts : Except.ok (smaCrossoverTrades data req)
      = (Except.ok ts : Except String (List Trade)),
      List.Chain' (fun t u : Trade => t.exit_time ≤ u.entry_time) ts
      ∧ ∀ t ∈ ts, t.entry_time < t.exit_time ∧ tradeOutcomeOk t := by
    intro hts
    cases hts
    exact trades_of_mkRows data _ _ _ none hsorted
  cases logic with
  | none => exact hsma h
  | some l =>
      dsimp only at h
      by_cases hi : l.indicators.isSome = true
      · rw [if_pos hi] at h
        unfold execDynamic at h
        dsimp only at h
        cases hE : (entrySignalStep
            ((l.indicators.getD []).foldl addIndicator
              { rows := data, cols := [] }) req l).2 with
        | error e => rw [hE] at h; cases h
        | ok es =>
            rw [hE] at h
            cases h
            have hrows : (entrySignalStep
                ((l.indicators.getD []).foldl addIndicator
                  { rows := data, cols := [] }) req l).1.rows = data := by
              rw [entrySignalStep_rows, foldl_addIndicator_rows]
            rw [hrows]
            exact trades_of_mkRows data _ _ _ _ hsorted
      · rw [if_neg hi] at h
        exact hsma h

/-! ## C1 and C3 -/

/-- C1: at most one position is open at a time — the loop ignores an
entry flag whenever a position is open (first conjunct: the flag's value
is irrelevant then) — and the emitted trade list is chronologically
non-overlapping (`exit_time ≤` the next trade's `entry_time`) for every
strictly time-sorted candle sequence, under both strategy pathways and at
the `run` level. -/
theorem single_open_position_nonoverlap :
    (∀ (slp : Option ℚ) (r : ExecRow) (rs : List ExecRow) (p : Position),
        dynLoop slp ({ r with entry := true } :: rs) (some p)
          = dynLoop slp ({ r with entry := false } :: rs) (some p))
    ∧ (∀ (data : List CandleQ) (req : BacktestRequest)
        (logic : Option StrategyLogic) (ts : List Trade),
        List.Pairwise (fun a b : CandleQ => a.time < b.time) data →
        tradesPhase data req logic = Except.ok ts →
        List.Chain' (fun t u : Trade => t.exit_time ≤ u.entry_time) ts)
    ∧ (∀ (data : List CandleQ) (req : BacktestRequest)
        (logic : Option StrategyLogic) (res : BacktestResult),
        List.Pairwise (fun a b : CandleQ => a.time < b.time) data →
        Backtester_run data req logic = Except.ok res →
        List.Chain' (fun t u : Trade => t.exit_time ≤ u.entry_time) res.trades) := by
  refine ⟨?_, ?_, ?_⟩
  · intro slp r rs p
    rfl
  · intro data req logic ts hs h
    exact (tradesPhase_trade_props data req logic ts hs h).1
  · intro data req logic res hs h
    rcases run_ok_trades data req logic res h with hempty | hok
    · rw [hempty]
      exact List.chain'_nil
    · exact (tradesPhase_trade_props data req logic res.trades hs hok).1

/-- Witness for C1 on the concrete 20-candle dynamic run (one trade). -/
theorem single_open_position_nonoverlap_witness :
    List.Pairwise (fun a b : CandleQ => a.time < b.time) cexCandles
    ∧ List.Chain' (fun t u : Trade => t.exit_time ≤ u.entry_time) [cexTrade] :=
  ⟨by decide,
    single_open_position_nonoverlap.2.1 cexCandles cexReq (some cexLogic)
      [cexTrade] (by decide) (exceptOk_of_toOption (by decide))⟩

/-- C3 (amended): on a strictly ascending-time candle sequence every
emitted trade has `exit_time > entry_time`, and the stored outcome is the
sign classification of the *exact* pnl `exit_price - entry_price`:
`win` iff positive, `loss` iff negative, `breakeven` iff zero.  The
stored `pnl` field is that difference rounded half-even to 4 decimals, so
a trade with exact pnl in `(0, 0.00005)` stores `pnl = 0` yet is
classified `win` (see the counterexample against the claim as stated). -/
theorem trade_times_and_outcome :
    (∀ (data : List CandleQ) (req : BacktestRequest)
        (logic : Option StrategyLogic) (ts : List Trade),
        List.Pairwise (fun a b : CandleQ => a.time < b.time) data →
        tradesPhase data req logic = Except.ok ts →
        ∀ t ∈ ts, tradeOutcomeOk t)
    ∧ (∀ (data : List CandleQ) (req : BacktestRequest)
        (logic : Option StrategyLogic) (res : BacktestResult),
        List.Pairwise (fun a b : CandleQ => a.time < b.time) data →
        Backtester_run data req logic = Except.ok res →
        ∀ t ∈ res.trades, tradeOutcomeOk t) := by
  constructor
  · intro data req logic ts hs h t ht
    exact ((tradesPhase_trade_props data req logic ts hs h).2 t ht).2
  · intro data req logic res hs h t ht
    rcases run_ok_trades data req logic res h with hempty | hok
    · rw [hempty] at ht
      cases ht
    · exact ((tradesPhase_trade_props data req logic res.trades hs hok).2 t ht).2

/-- Witness for C3 (amended) at the concrete winning trade. -/
theorem trade_times_and_outcome_witness : tradeOutcomeOk cexTrade :=
  trade_times_and_outcome.1 cexCandles cexReq (some cexLogic) [cexTrade]
    (by decide) (exceptOk_of_toOption (by decide)) cexTrade (by decide)

/-- Counterexample to C3 as stated: the run on `cexCandles` (strictly
ascending times) emits a trade classified `win` whose *stored* `pnl`
field is 0 — the outcome is not the sign of the stored, rounded pnl. -/
theorem outcome_vs_stored_pnl_cex :
    List.Pairwise (fun a b : CandleQ => a.time < b.time) cexCandles
    ∧ (Backtester_run cexCandles cexReq (some cexLogic)).map (fun r => r.trades)
      = Except.ok [cexTrade]
    ∧ cexTrade.status = TradeStatus.win
    ∧ cexTrade.pnl = 0
    ∧ ¬(0 < cexTrade.pnl) := by
  refine ⟨by decide, ?_, rfl, rfl, by norm_num [cexTrade]⟩
  exact run_trades_of_ok _ _ _ _ (by decide) (exceptOk_of_toOption (by decide))

end Backtest
